import Mathlib

/-!
Verification of the Certificate Validation Dashboard's integration logic:
a shallow embedding of `src/services/upload_service.py`,
`src/services/push_to_blob.py` and the display conversion in `src/main.py`,
together with theorems settling the specified properties of the Archive
Writer (`save_to_blob_storage`) and the Analysis Client's poll loop.

Modelling conventions:
- Python dicts of extracted fields become association lists
  `List (String × Value)` (Python dicts preserve insertion order; keys are
  unique in every run of the program, and all lemmas hold for general lists
  with first-occurrence lookup/update semantics, matching dict behaviour on
  duplicate-free lists).
- JSON-able Python values are the inductive `Value` (strings, lists of
  strings, `None`), with Python truthiness embedded as `Value.falsy`.
- The network is an oracle `responses : Nat → PutOutcome` giving the result
  of the i-th `requests.put` call: an HTTP response (status, body) or a
  transport exception.  Wall-clock time enters as the parameter
  `now : Nat`, the epoch-milliseconds timestamp the code reads once.
- Side effects are reified as a trace `List Event` (PUT attempts with the
  exact blob name and JSON payload mapping, `time.sleep` calls, and the
  optional local-file write of `upload_service.py`).
- Raising becomes the `Outcome` sum; Python's in-place mutation of the
  caller's `fields` dict is modelled by returning the dict's final state
  in `SaveResult.final`.
-/

namespace CertDash

/-- A JSON-able Python value as used for extracted fields: a string, a list
of strings (`deviceTable` / `deviceName`), or `None`. -/
inductive Value where
  | str (s : String)
  | list (xs : List String)
  | null
deriving DecidableEq, Repr

/-- Python truthiness (`bool(v)`) of a `Value`: empty string, empty list and
`None` are falsy; everything else is truthy.  `not fields["documentName"]`
in the source is `(dictGet fields "documentName").falsy`. -/
def Value.falsy : Value → Bool
  | .str s => s.isEmpty
  | .list xs => xs.isEmpty
  | .null => true

/-- The extracted-fields mapping: an insertion-ordered dict. -/
abbrev Fields : Type := List (String × Value)

/-- Python `fields[k]` / `k in fields`: first-occurrence lookup. -/
def dictGet : Fields → String → Option Value
  | [], _ => none
  | (k', v) :: rest, k => if k' = k then some v else dictGet rest k

/-- Python `fields[k] = v`: replace the value at `k` in place if the key is
present, otherwise append the new key at the end (dict insertion order). -/
def dictSet : Fields → String → Value → Fields
  | [], k, v => [(k, v)]
  | (k', v') :: rest, k, v =>
    if k' = k then (k, v) :: rest else (k', v') :: dictSet rest k v

/-- Outcome of one `requests.put` call: an HTTP response with status code
and body text, or a raised transport exception with a message. -/
inductive PutOutcome where
  | response (status : Nat) (body : String)
  | exc (msg : String)
deriving DecidableEq, Repr

/-- The errors `save_to_blob_storage` can raise, one constructor per raise
site: the empty-fields `ValueError`, the three classified `RuntimeError`s
for statuses 403/409/400, the generic failure carrying status and body, a
re-raised transport exception, and the generic exhausted-retries
`RuntimeError` of the final `raise last_exception or RuntimeError(...)`. -/
inductive Err where
  | valueEmptyFields
  | authError
  | conflict
  | badRequest
  | genericFailure (status : Nat) (body : String)
  | transport (msg : String)
  | exhaustedRetries
deriving DecidableEq, Repr

/-- Result of a call: normal return (`None` in Python) or a raised error. -/
inductive Outcome where
  | ok
  | err (e : Err)
deriving DecidableEq, Repr

/-- Observable side effects of one archive call: a `requests.put` with the
derived blob name and the JSON-serialized mapping it sends, a
`time.sleep` of the given number of time units, or the optional
local-storage file write of `upload_service.py` (gated on `SAVE_LOCAL`). -/
inductive Event where
  | put (blob : String) (payload : Fields)
  | sleep (units : Nat)
  | localWrite (blob : String) (payload : Fields)
deriving DecidableEq, Repr

/-- Whether an event is a PUT attempt. -/
def isPut : Event → Bool
  | .put _ _ => true
  | _ => false

/-- Number of PUT attempts in a trace. -/
def putCount (tr : List Event) : Nat := (tr.filter isPut).length

/-- First PUT attempt in a trace, if any. -/
def firstPut (tr : List Event) : Option Event := (tr.filter isPut).head?

/-- Whether an event is the local-file write (not part of the network path). -/
def isLocalWrite : Event → Bool
  | .localWrite _ _ => true
  | _ => false

/-- The network path of a trace: everything but local-file writes. -/
def networkTrace (tr : List Event) : List Event :=
  tr.filter (fun e => !isLocalWrite e)

/-- Python's `s.split(sep)[..]` for a one-character separator, on the
character list: splits into the (never empty) list of groups between
occurrences of `sep`. -/
def pySplit (sep : Char) : List Char → List (List Char)
  | [] => [[]]
  | c :: rest =>
    let groups := pySplit sep rest
    if c = sep then [] :: groups
    else
      match groups with
      | [] => [[c]]
      | g :: gs => (c :: g) :: gs

/-- Everything the archive call returns to its environment: the side-effect
trace, the return/raise outcome, and the final state of the caller's
`fields` dict (the source mutates it in place). -/
structure SaveResult where
  trace : List Event
  outcome : Outcome
  final : Fields
deriving DecidableEq, Repr

/-- Whether some value of the mapping is a list (would serialize as a JSON
array in the PUT body). -/
def hasListValue (m : Fields) : Bool :=
  m.any fun kv =>
    match kv.2 with
    | .list _ => true
    | _ => false

namespace UploadService

/-- Lines 65–71 of `src/services/upload_service.py`: if `documentName` is
missing or falsy, set it to `"Unknown Declaration"`; then, if `deviceName`
is missing or `None`, set it to the empty list.  Mutation is modelled by
returning the updated dict. -/
def ensureDefaults (fields : Fields) : Fields :=
  let f1 :=
    match dictGet fields "documentName" with
    | none => dictSet fields "documentName" (.str "Unknown Declaration")
    | some v =>
      if v.falsy then dictSet fields "documentName" (.str "Unknown Declaration")
      else fields
  match dictGet f1 "deviceName" with
  | none => dictSet f1 "deviceName" (.list [])
  | some v => if v = .null then dictSet f1 "deviceName" (.list []) else f1

/-- Lines 74–75 of `src/services/upload_service.py`:
`blob_name = f"{file_name.split('.')[0]}_result_{timestamp}.json"` with
`timestamp = str(int(datetime.now().timestamp() * 1000))`, the epoch time
in milliseconds passed in here as `timestampMillis`. -/
def blobName (fileName : String) (timestampMillis : Nat) : String :=
  String.mk ((pySplit '.' fileName.data).headD []) ++ "_result_"
    ++ toString timestampMillis ++ ".json"

/-- Lines 121–129 of `src/services/upload_service.py`: the error raised for
a non-201 response: 403 → auth error, 409 → name collision, 400 → bad
request, anything else → generic failure carrying status and body. -/
def classify (status : Nat) (body : String) : Err :=
  if status = 403 then .authError
  else if status = 409 then .conflict
  else if status = 400 then .badRequest
  else .genericFailure status body

/-- Lines 96–140 of `src/services/upload_service.py`: the
`while attempt < max_retries` retry loop.  `remaining` is
`max_retries - attempt`; `idx` numbers the PUT attempts from 0; `lastExc`
is `last_exception`.  Each iteration PUTs, returns on 201, otherwise
raises a classified error that the blanket `except` catches into
`last_exception`, sleeping 2 units when attempts remain; loop exit raises
`last_exception or RuntimeError(...)` (folded into the `remaining = 0`
base case). -/
def runAttempts (blob : String) (payload : Fields) (responses : Nat → PutOutcome) :
    Nat → Nat → Option Err → List Event × Outcome
  | 0, _, lastExc => ([], .err (lastExc.getD .exhaustedRetries))
  | remaining + 1, idx, _ =>
    match responses idx with
    | .response status body =>
      if status = 201 then ([.put blob payload], .ok)
      else
        let next := runAttempts blob payload responses remaining (idx + 1)
          (some (classify status body))
        if remaining = 0 then (.put blob payload :: next.1, next.2)
        else (.put blob payload :: .sleep 2 :: next.1, next.2)
    | .exc m =>
      let next := runAttempts blob payload responses remaining (idx + 1)
        (some (.transport m))
      if remaining = 0 then (.put blob payload :: next.1, next.2)
      else (.put blob payload :: .sleep 2 :: next.1, next.2)

/-- Lines 59–140 of `src/services/upload_service.py`: validate non-empty,
fill defaults (mutating the caller's dict), derive the blob name from the
file name and the current epoch-milliseconds `now`, optionally write the
local-storage copy (`SAVE_LOCAL`, here `saveLocal`; its own failures are
swallowed by the source and do not affect anything observed here), then
run the 3-attempt PUT loop. -/
def save_to_blob_storage (fileName : String) (fields : Fields) (saveLocal : Bool)
    (now : Nat) (responses : Nat → PutOutcome) : SaveResult :=
  if fields.isEmpty then ⟨[], .err .valueEmptyFields, fields⟩
  else
    let fields := ensureDefaults fields
    let blob := blobName fileName now
    let localEvents := if saveLocal then [Event.localWrite blob fields] else []
    let r := runAttempts blob fields responses 3 0 none
    ⟨localEvents ++ r.1, r.2, fields⟩

end UploadService

namespace PushToBlob

/-- Lines 23–28 of `src/services/push_to_blob.py`: identical default
filling to the upload-service version. -/
def ensureDefaults (fields : Fields) : Fields :=
  let f1 :=
    match dictGet fields "documentName" with
    | none => dictSet fields "documentName" (.str "Unknown Declaration")
    | some v =>
      if v.falsy then dictSet fields "documentName" (.str "Unknown Declaration")
      else fields
  match dictGet f1 "deviceName" with
  | none => dictSet f1 "deviceName" (.list [])
  | some v => if v = .null then dictSet f1 "deviceName" (.list []) else f1

/-- Lines 31–32 of `src/services/push_to_blob.py`: the same blob-name
derivation. -/
def blobName (fileName : String) (timestampMillis : Nat) : String :=
  String.mk ((pySplit '.' fileName.data).headD []) ++ "_result_"
    ++ toString timestampMillis ++ ".json"

/-- Lines 65–73 of `src/services/push_to_blob.py`: the same status
classification. -/
def classify (status : Nat) (body : String) : Err :=
  if status = 403 then .authError
  else if status = 409 then .conflict
  else if status = 400 then .badRequest
  else .genericFailure status body

/-- Lines 41–84 of `src/services/push_to_blob.py`: the same 3-attempt
retry loop. -/
def runAttempts (blob : String) (payload : Fields) (responses : Nat → PutOutcome) :
    Nat → Nat → Option Err → List Event × Outcome
  | 0, _, lastExc => ([], .err (lastExc.getD .exhaustedRetries))
  | remaining + 1, idx, _ =>
    match responses idx with
    | .response status body =>
      if status = 201 then ([.put blob payload], .ok)
      else
        let next := runAttempts blob payload responses remaining (idx + 1)
          (some (classify status body))
        if remaining = 0 then (.put blob payload :: next.1, next.2)
        else (.put blob payload :: .sleep 2 :: next.1, next.2)
    | .exc m =>
      let next := runAttempts blob payload responses remaining (idx + 1)
        (some (.transport m))
      if remaining = 0 then (.put blob payload :: next.1, next.2)
      else (.put blob payload :: .sleep 2 :: next.1, next.2)

/-- Lines 16–84 of `src/services/push_to_blob.py`: the archive operation,
identical to the upload-service one except that there is no local-storage
write. -/
def save_to_blob_storage (fileName : String) (fields : Fields)
    (now : Nat) (responses : Nat → PutOutcome) : SaveResult :=
  if fields.isEmpty then ⟨[], .err .valueEmptyFields, fields⟩
  else
    let fields := ensureDefaults fields
    let blob := blobName fileName now
    let r := runAttempts blob fields responses 3 0 none
    ⟨r.1, r.2, fields⟩

end PushToBlob

/-- Lines 31–35 of `src/main.py`: the display conversion
`{key: ", ".join(value) if isinstance(value, list) else value ...}`. -/
def display_fields (m : Fields) : Fields :=
  m.map fun kv =>
    (kv.1,
      match kv.2 with
      | .list xs => .str (String.intercalate ", " xs)
      | v => v)

namespace AnalysisClient

/-- Modelled from the spec: job status enum of the Analysis Client
(`upload_to_azure_ai`, imported by `src/main.py` from
`services.upload_service` but absent from `src/`),
spec §3: `{notStarted, running, succeeded, failed}`. -/
inductive JobStatus where
  | notStarted
  | running
  | succeeded
  | failed
deriving DecidableEq, Repr

/-- Modelled from the spec: outcome of one poll query — a non-success
transport code (immediately fatal per spec §4.1), or a 200 response
carrying the job status. -/
inductive PollStep where
  | transportFail (status : Nat)
  | status (s : JobStatus)
deriving DecidableEq, Repr

/-- Modelled from the spec: the errors the poll operation can raise
(spec §4.1 / §7): fatal transport failure, "analysis failed" on a failed
terminal status, and the timeout on exhausting the attempt ceiling. -/
inductive PollErr where
  | transportError (status : Nat)
  | analysisFailed
  | timeoutError
deriving DecidableEq, Repr

/-- Modelled from the spec: result of polling — the extracted fields on
success, or a raised error; never partial fields. -/
inductive PollOutcome where
  | fields (extracted : Fields)
  | fail (e : PollErr)
deriving DecidableEq, Repr

/-- Modelled from the spec (the `poll` operation of `upload_to_azure_ai`,
absent from `src/`), spec §4.1: query the job status at a fixed 2-unit
interval up to 30 attempts; a non-success transport code is immediately
fatal; while status is `notStarted`/`running`, continue; on `succeeded`
return the extracted fields; on any other terminal status raise "analysis
failed"; exceeding the ceiling raises a timeout.  `steps i` is the
outcome of the i-th query; the result pairs the number of queries made
with the outcome. -/
def pollLoop (steps : Nat → PollStep) (extracted : Fields) :
    Nat → Nat → Nat × PollOutcome
  | 0, queries => (queries, .fail .timeoutError)
  | remaining + 1, queries =>
    match steps queries with
    | .transportFail s => (queries + 1, .fail (.transportError s))
    | .status .succeeded => (queries + 1, .fields extracted)
    | .status .failed => (queries + 1, .fail .analysisFailed)
    | .status .notStarted => pollLoop steps extracted remaining (queries + 1)
    | .status .running => pollLoop steps extracted remaining (queries + 1)

/-- Modelled from the spec: the poll operation with its fixed attempt
ceiling of 30. -/
def poll (steps : Nat → PollStep) (extracted : Fields) : Nat × PollOutcome :=
  pollLoop steps extracted 30 0

end AnalysisClient

/-- A PUT outcome the retry loop counts as a failed attempt: any non-201
response, or a transport exception. -/
def isFailure : PutOutcome → Bool
  | .response s _ => s != 201
  | .exc _ => true

namespace UploadService

/-- The error captured into `last_exception` for a failed PUT outcome: the
classified error of a non-201 response, or the transport exception. -/
def errOf : PutOutcome → Err
  | .response s b => classify s b
  | .exc m => .transport m

end UploadService

/-- Restatement of the first default-filling step (`documentName`) as a
standalone function, proved equal to the source embedding below. -/
def setDocDefault (m : Fields) : Fields :=
  match dictGet m "documentName" with
  | none => dictSet m "documentName" (.str "Unknown Declaration")
  | some v =>
    if v.falsy then dictSet m "documentName" (.str "Unknown Declaration")
    else m

/-- Restatement of the second default-filling step (`deviceName`) as a
standalone function, proved equal to the source embedding below. -/
def setDevDefault (m : Fields) : Fields :=
  match dictGet m "deviceName" with
  | none => dictSet m "deviceName" (.list [])
  | some v => if v = Value.null then dictSet m "deviceName" (.list []) else m

/-- The prefix of a character list strictly before its LAST `.`, when the
list has one. -/
def specBasenameAux : List Char → Option (List Char)
  | [] => none
  | c :: rest =>
    match specBasenameAux rest with
    | some tail => some (c :: tail)
    | none => if c = '.' then some [] else none

/-- The claim's notion of base name, following the spec's words
(`<basename(name)>`): the file name with its extension — the part from the
last dot on — removed; a dotless name is its own base name.  Stated from
the spec only, to express the claim; the source instead keeps the part
before the FIRST dot. -/
def specBasename (s : String) : String :=
  String.mk ((specBasenameAux s.data).getD s.data)

theorem ensureDefaults_eq_set (m : Fields) :
    UploadService.ensureDefaults m = setDevDefault (setDocDefault m) := rfl

theorem dictGet_dictSet_self (m : Fields) (k : String) (v : Value) :
    dictGet (dictSet m k v) k = some v := by
  induction m with
  | nil => simp [dictSet, dictGet]
  | cons kv rest ih =>
    obtain ⟨k', v'⟩ := kv
    by_cases h : k' = k
    · simp [dictSet, dictGet, h]
    · simp [dictSet, dictGet, h, ih]

theorem dictGet_dictSet_ne (m : Fields) (k k' : String) (v : Value)
    (h : k' ≠ k) : dictGet (dictSet m k v) k' = dictGet m k' := by
  induction m with
  | nil => simp [dictSet, dictGet, Ne.symm h]
  | cons kv rest ih =>
    obtain ⟨k'', v''⟩ := kv
    by_cases hk : k'' = k
    · simp [dictSet, dictGet, hk, Ne.symm h]
    · by_cases hk' : k'' = k'
      · simp [dictSet, dictGet, hk, hk', h, Ne.symm h]
      · simp [dictSet, dictGet, hk, hk', ih]

theorem pySplit_ne_nil (sep : Char) (l : List Char) : pySplit sep l ≠ [] := by
  induction l with
  | nil => simp [pySplit]
  | cons c rest ih =>
    simp only [pySplit]
    by_cases h : c = sep
    · simp [h]
    · simp only [h, if_false]
      cases hg : pySplit sep rest with
      | nil => simp
      | cons g gs => simp

theorem pySplit_headD (sep : Char) (l : List Char) :
    (pySplit sep l).headD [] = l.takeWhile (fun c => c != sep) := by
  induction l with
  | nil => simp [pySplit]
  | cons c rest ih =>
    simp only [pySplit, List.takeWhile]
    by_cases h : c = sep
    · simp [h]
    · simp only [h, if_false]
      cases hg : pySplit sep rest with
      | nil => exact absurd hg (pySplit_ne_nil sep rest)
      | cons g gs =>
        rw [hg] at ih
        simp only [List.headD] at ih
        have hb : (c != sep) = true := by simp [h]
        simp [List.takeWhile, hb, ih]

theorem runAttempts_fail_step (blob : String) (payload : Fields)
    (rs : Nat → PutOutcome) (remaining idx : Nat) (lastExc : Option Err)
    (h : isFailure (rs idx) = true) :
    UploadService.runAttempts blob payload rs (remaining + 1) idx lastExc =
      ((Event.put blob payload :: if remaining = 0 then [] else [Event.sleep 2])
          ++ (UploadService.runAttempts blob payload rs remaining (idx + 1)
                (some (UploadService.errOf (rs idx)))).1,
        (UploadService.runAttempts blob payload rs remaining (idx + 1)
          (some (UploadService.errOf (rs idx)))).2) := by
  cases hr : rs idx with
  | response s b =>
    rw [hr] at h
    simp only [isFailure, bne_iff_ne, ne_eq] at h
    simp only [UploadService.runAttempts, hr, h, if_false, UploadService.errOf]
    split <;> simp
  | exc m =>
    simp only [UploadService.runAttempts, hr, UploadService.errOf]
    split <;> simp

theorem runAttempts_success_step (blob : String) (payload : Fields)
    (rs : Nat → PutOutcome) (remaining idx : Nat) (lastExc : Option Err)
    (body : String) (h : rs idx = .response 201 body) :
    UploadService.runAttempts blob payload rs (remaining + 1) idx lastExc =
      ([Event.put blob payload], .ok) := by
  simp [UploadService.runAttempts, h]

theorem setDocDefault_default (m : Fields)
    (h : dictGet m "documentName" = none ∨
      ∃ v, dictGet m "documentName" = some v ∧ v.falsy = true) :
    dictGet (setDocDefault m) "documentName"
      = some (.str "Unknown Declaration") := by
  rcases h with h | ⟨v, hv, hf⟩
  · simp [setDocDefault, h, dictGet_dictSet_self]
  · simp [setDocDefault, hv, hf, dictGet_dictSet_self]

theorem setDocDefault_id (m : Fields) (v : Value)
    (hv : dictGet m "documentName" = some v) (hf : v.falsy = false) :
    setDocDefault m = m := by
  simp [setDocDefault, hv, hf]

theorem setDocDefault_ne (m : Fields) (k : String) (h : k ≠ "documentName") :
    dictGet (setDocDefault m) k = dictGet m k := by
  cases hd : dictGet m "documentName" with
  | none => simp [setDocDefault, hd, dictGet_dictSet_ne _ _ _ _ h]
  | some v =>
    by_cases hf : v.falsy = true
    · simp [setDocDefault, hd, hf, dictGet_dictSet_ne _ _ _ _ h]
    · simp [setDocDefault, hd, hf]

theorem setDevDefault_default (m : Fields)
    (h : dictGet m "deviceName" = none ∨ dictGet m "deviceName" = some .null) :
    dictGet (setDevDefault m) "deviceName" = some (.list []) := by
  rcases h with h | h
  · simp [setDevDefault, h, dictGet_dictSet_self]
  · simp [setDevDefault, h, dictGet_dictSet_self]

theorem setDevDefault_id (m : Fields) (w : Value)
    (hw : dictGet m "deviceName" = some w) (hn : w ≠ Value.null) :
    setDevDefault m = m := by
  simp [setDevDefault, hw, hn]

theorem setDevDefault_ne (m : Fields) (k : String) (h : k ≠ "deviceName") :
    dictGet (setDevDefault m) k = dictGet m k := by
  cases hd : dictGet m "deviceName" with
  | none => simp [setDevDefault, hd, dictGet_dictSet_ne _ _ _ _ h]
  | some w =>
    by_cases hw : w = Value.null
    · simp [setDevDefault, hd, hw, dictGet_dictSet_ne _ _ _ _ h]
    · simp [setDevDefault, hd, hw]

theorem ensureDefaults_docName (m : Fields)
    (h : dictGet m "documentName" = none ∨
      ∃ v, dictGet m "documentName" = some v ∧ v.falsy = true) :
    dictGet (UploadService.ensureDefaults m) "documentName"
      = some (.str "Unknown Declaration") := by
  rw [ensureDefaults_eq_set, setDevDefault_ne _ _ (by decide)]
  exact setDocDefault_default m h

theorem ensureDefaults_deviceName (m : Fields)
    (h : dictGet m "deviceName" = none ∨ dictGet m "deviceName" = some .null) :
    dictGet (UploadService.ensureDefaults m) "deviceName" = some (.list []) := by
  rw [ensureDefaults_eq_set]
  refine setDevDefault_default _ ?_
  rw [setDocDefault_ne _ _ (by decide)]
  exact h

theorem ensureDefaults_other (m : Fields) (k : String)
    (h1 : k ≠ "documentName") (h2 : k ≠ "deviceName") :
    dictGet (UploadService.ensureDefaults m) k = dictGet m k := by
  rw [ensureDefaults_eq_set, setDevDefault_ne _ _ h2, setDocDefault_ne _ _ h1]

theorem ensureDefaults_id (m : Fields) (v w : Value)
    (hv : dictGet m "documentName" = some v) (hf : v.falsy = false)
    (hw : dictGet m "deviceName" = some w) (hn : w ≠ Value.null) :
    UploadService.ensureDefaults m = m := by
  rw [ensureDefaults_eq_set, setDocDefault_id m v hv hf]
  exact setDevDefault_id m w hw hn

theorem save_unfold (fn : String) (fields : Fields) (sl : Bool) (now : Nat)
    (rs : Nat → PutOutcome) (hne : fields ≠ []) :
    UploadService.save_to_blob_storage fn fields sl now rs =
      ⟨(if sl then
          [Event.localWrite (UploadService.blobName fn now)
            (UploadService.ensureDefaults fields)]
        else [])
          ++ (UploadService.runAttempts (UploadService.blobName fn now)
                (UploadService.ensureDefaults fields) rs 3 0 none).1,
        (UploadService.runAttempts (UploadService.blobName fn now)
          (UploadService.ensureDefaults fields) rs 3 0 none).2,
        UploadService.ensureDefaults fields⟩ := by
  cases fields with
  | nil => exact absurd rfl hne
  | cons a t => rfl

theorem runAttempts_three_fails (bn : String) (pl : Fields)
    (rs : Nat → PutOutcome)
    (h0 : isFailure (rs 0) = true) (h1 : isFailure (rs 1) = true)
    (h2 : isFailure (rs 2) = true) :
    UploadService.runAttempts bn pl rs 3 0 none =
      ([.put bn pl, .sleep 2, .put bn pl, .sleep 2, .put bn pl],
        .err (UploadService.errOf (rs 2))) := by
  have e2 : UploadService.runAttempts bn pl rs 1 2
      (some (UploadService.errOf (rs 1))) =
      ([Event.put bn pl], Outcome.err (UploadService.errOf (rs 2))) := by
    have h := runAttempts_fail_step bn pl rs 0 2
      (some (UploadService.errOf (rs 1))) h2
    simpa [UploadService.runAttempts] using h
  have e1 : UploadService.runAttempts bn pl rs 2 1
      (some (UploadService.errOf (rs 0))) =
      ([Event.put bn pl, Event.sleep 2, Event.put bn pl],
        Outcome.err (UploadService.errOf (rs 2))) := by
    have h := runAttempts_fail_step bn pl rs 1 1
      (some (UploadService.errOf (rs 0))) h1
    simpa [e2] using h
  have h := runAttempts_fail_step bn pl rs 2 0 none h0
  simpa [e1] using h

/-- C1: for every archive call in which every PUT attempt fails (a non-201
response or a transport exception), exactly 3 PUT attempts occur,
consecutive attempts are separated by one fixed `time.sleep 2`, and the
error finally raised is the last encountered error — the classified error
of the third attempt's outcome.  (With three failing attempts an error is
always captured, so the generic exhausted-retries error of
`raise last_exception or RuntimeError(...)` never fires here, exactly as
the claim's parenthetical allows.) -/
theorem claim_c1_exhausted_retries (fn : String) (fields : Fields) (sl : Bool)
    (now : Nat) (rs : Nat → PutOutcome) (hne : fields ≠ [])
    (hfail : ∀ i, i < 3 → isFailure (rs i) = true) :
    networkTrace (UploadService.save_to_blob_storage fn fields sl now rs).trace
      = [.put (UploadService.blobName fn now) (UploadService.ensureDefaults fields),
         .sleep 2,
         .put (UploadService.blobName fn now) (UploadService.ensureDefaults fields),
         .sleep 2,
         .put (UploadService.blobName fn now) (UploadService.ensureDefaults fields)]
      ∧ (UploadService.save_to_blob_storage fn fields sl now rs).outcome
        = .err (UploadService.errOf (rs 2)) := by
  rw [save_unfold fn fields sl now rs hne,
    runAttempts_three_fails _ _ rs (hfail 0 (by norm_num))
      (hfail 1 (by norm_num)) (hfail 2 (by norm_num))]
  cases sl <;> simp [networkTrace, isLocalWrite]

/-- Witness for C1: a concrete run whose three PUTs all return 500. -/
theorem claim_c1_witness :
    networkTrace (UploadService.save_to_blob_storage "report.pdf"
        [("documentName", Value.str "x")] false 7
        (fun _ => .response 500 "oops")).trace
      = [.put "report_result_7.json"
            [("documentName", Value.str "x"), ("deviceName", Value.list [])],
         .sleep 2,
         .put "report_result_7.json"
            [("documentName", Value.str "x"), ("deviceName", Value.list [])],
         .sleep 2,
         .put "report_result_7.json"
            [("documentName", Value.str "x"), ("deviceName", Value.list [])]]
      ∧ (UploadService.save_to_blob_storage "report.pdf"
          [("documentName", Value.str "x")] false 7
          (fun _ => .response 500 "oops")).outcome
        = .err (.genericFailure 500 "oops") := by
  have h := claim_c1_exhausted_retries "report.pdf"
    [("documentName", Value.str "x")] false 7 (fun _ => .response 500 "oops")
    (by decide) (fun i _ => rfl)
  exact h

/-- C2: a 403/409/400 response on the first (non-final) attempt is
classified into its specific error (403 → auth, 409 → name collision,
400 → bad request) but does not end the call early: the loop still makes
all 3 PUT attempts, exactly as for generic failures, and only after the
cap does it surface the (classified) error of the last attempt. -/
theorem claim_c2_classified_still_retried (fn : String) (fields : Fields)
    (sl : Bool) (now : Nat) (rs : Nat → PutOutcome) (s : Nat) (b : String)
    (hne : fields ≠ [])
    (hs : s = 403 ∨ s = 409 ∨ s = 400)
    (h0 : rs 0 = .response s b)
    (hrest : ∀ i, 1 ≤ i → i < 3 → isFailure (rs i) = true) :
    putCount (UploadService.save_to_blob_storage fn fields sl now rs).trace = 3
      ∧ (UploadService.save_to_blob_storage fn fields sl now rs).outcome
        = .err (UploadService.errOf (rs 2))
      ∧ UploadService.errOf (rs 0) = UploadService.classify s b
      ∧ (s = 403 → UploadService.classify s b = .authError)
      ∧ (s = 409 → UploadService.classify s b = .conflict)
      ∧ (s = 400 → UploadService.classify s b = .badRequest) := by
  have hf0 : isFailure (rs 0) = true := by
    rw [h0]; rcases hs with h | h | h <;> subst h <;> rfl
  have tf := runAttempts_three_fails (UploadService.blobName fn now)
    (UploadService.ensureDefaults fields) rs hf0
    (hrest 1 (by norm_num) (by norm_num)) (hrest 2 (by norm_num) (by norm_num))
  rw [save_unfold fn fields sl now rs hne, tf]
  refine ⟨?_, rfl, ?_, ?_, ?_, ?_⟩
  · cases sl <;> simp [putCount, isPut]
  · rw [h0]; rfl
  · rintro rfl; simp [UploadService.classify]
  · rintro rfl; simp [UploadService.classify]
  · rintro rfl; simp [UploadService.classify]

/-- Witness for C2: a run whose three PUTs all return 403; three attempts
happen and the auth error surfaces only after the cap. -/
theorem claim_c2_witness :
    putCount (UploadService.save_to_blob_storage "report.pdf"
        [("documentName", Value.str "x")] false 7
        (fun _ => .response 403 "denied")).trace = 3
      ∧ (UploadService.save_to_blob_storage "report.pdf"
          [("documentName", Value.str "x")] false 7
          (fun _ => .response 403 "denied")).outcome
        = .err .authError := by
  have h := claim_c2_classified_still_retried "report.pdf"
    [("documentName", Value.str "x")] false 7 (fun _ => .response 403 "denied")
    403 "denied" (by decide) (Or.inl rfl) rfl (fun i _ _ => rfl)
  exact ⟨h.1, h.2.1⟩

/-- C3: an archive call with an empty fields mapping raises the fatal
empty-fields `ValueError` immediately, performs no PUT attempt (its trace
is empty), and writes nothing; this holds for both implementations of the
operation. -/
theorem claim_c3_empty_fields_rejected (fn : String) (sl : Bool) (now : Nat)
    (rs : Nat → PutOutcome) :
    UploadService.save_to_blob_storage fn ([] : Fields) sl now rs
      = ⟨[], .err .valueEmptyFields, []⟩
    ∧ putCount (UploadService.save_to_blob_storage fn ([] : Fields) sl now rs).trace = 0
    ∧ PushToBlob.save_to_blob_storage fn ([] : Fields) now rs
      = ⟨[], .err .valueEmptyFields, []⟩ :=
  ⟨rfl, rfl, rfl⟩

theorem runAttempts_first_put (bn : String) (pl : Fields)
    (rs : Nat → PutOutcome) (remaining idx : Nat) (lastExc : Option Err) :
    firstPut (UploadService.runAttempts bn pl rs (remaining + 1) idx lastExc).1
      = some (.put bn pl) := by
  cases hr : rs idx with
  | response st bd =>
    by_cases h201 : st = 201
    · subst h201
      rw [runAttempts_success_step bn pl rs remaining idx lastExc bd hr]
      rfl
    · have hf : isFailure (rs idx) = true := by
        rw [hr]; simp [isFailure, h201]
      rw [runAttempts_fail_step bn pl rs remaining idx lastExc hf]
      simp [firstPut, isPut]
  | exc m =>
    have hf : isFailure (rs idx) = true := by rw [hr]; rfl
    rw [runAttempts_fail_step bn pl rs remaining idx lastExc hf]
    simp [firstPut, isPut]

/-- C4: for every non-empty fields mapping, the archive operation PUTs the
defaults-filled record `ensureDefaults fields` (its first — and every —
PUT payload), and that record has `documentName = "Unknown Declaration"`
whenever the input's `documentName` is missing or blank/falsy,
`deviceName = []` whenever the input's `deviceName` is absent or null, and
every other key's value carried through unchanged. -/
theorem claim_c4_default_filling (fn : String) (fields : Fields) (sl : Bool)
    (now : Nat) (rs : Nat → PutOutcome) (hne : fields ≠ []) :
    firstPut (UploadService.save_to_blob_storage fn fields sl now rs).trace
      = some (.put (UploadService.blobName fn now)
          (UploadService.ensureDefaults fields))
    ∧ ((dictGet fields "documentName" = none ∨
        ∃ v, dictGet fields "documentName" = some v ∧ v.falsy = true) →
        dictGet (UploadService.ensureDefaults fields) "documentName"
          = some (.str "Unknown Declaration"))
    ∧ ((dictGet fields "deviceName" = none ∨
        dictGet fields "deviceName" = some .null) →
        dictGet (UploadService.ensureDefaults fields) "deviceName"
          = some (.list []))
    ∧ (∀ k, k ≠ "documentName" → k ≠ "deviceName" →
        dictGet (UploadService.ensureDefaults fields) k = dictGet fields k) := by
  refine ⟨?_, ensureDefaults_docName fields, ensureDefaults_deviceName fields,
    fun k h1 h2 => ensureDefaults_other fields k h1 h2⟩
  rw [save_unfold fn fields sl now rs hne]
  have h := runAttempts_first_put (UploadService.blobName fn now)
    (UploadService.ensureDefaults fields) rs 2 0 none
  norm_num at h
  cases sl <;> simp_all [firstPut, isPut, List.filter_append]

/-- Witness for C4: blank documentName, null deviceName, and one ordinary
key, archived with one successful PUT. -/
theorem claim_c4_witness :
    firstPut (UploadService.save_to_blob_storage "cert.pdf"
        [("documentName", Value.str ""), ("deviceName", Value.null),
         ("organizationName", Value.str "Acme")] false 3
        (fun _ => .response 201 "")).trace
      = some (.put "cert_result_3.json"
          [("documentName", Value.str "Unknown Declaration"),
           ("deviceName", Value.list []),
           ("organizationName", Value.str "Acme")])
    ∧ dictGet (UploadService.ensureDefaults
        [("documentName", Value.str ""), ("deviceName", Value.null),
         ("organizationName", Value.str "Acme")]) "documentName"
      = some (.str "Unknown Declaration")
    ∧ dictGet (UploadService.ensureDefaults
        [("documentName", Value.str ""), ("deviceName", Value.null),
         ("organizationName", Value.str "Acme")]) "deviceName"
      = some (.list [])
    ∧ dictGet (UploadService.ensureDefaults
        [("documentName", Value.str ""), ("deviceName", Value.null),
         ("organizationName", Value.str "Acme")]) "organizationName"
      = some (.str "Acme") := by
  have h := claim_c4_default_filling "cert.pdf"
    [("documentName", Value.str ""), ("deviceName", Value.null),
     ("organizationName", Value.str "Acme")] false 3
    (fun _ => .response 201 "") (by decide)
  refine ⟨h.1, h.2.1 (Or.inr ⟨Value.str "", rfl, rfl⟩), h.2.2.1 (Or.inr rfl), ?_⟩
  rw [h.2.2.2 "organizationName" (by decide) (by decide)]
  rfl

theorem dictGet_display (m : Fields) (k : String) :
    dictGet (display_fields m) k
      = (dictGet m k).map fun v =>
          match v with
          | Value.list xs => Value.str (String.intercalate ", " xs)
          | v => v := by
  induction m with
  | nil => simp [display_fields, dictGet]
  | cons kv rest ih =>
    obtain ⟨k', v'⟩ := kv
    by_cases h : k' = k
    · simp [display_fields, dictGet, h]
    · simpa [display_fields, dictGet, h] using ih

theorem display_no_lists (m : Fields) :
    hasListValue (display_fields m) = false := by
  induction m with
  | nil => rfl
  | cons kv rest ih =>
    obtain ⟨k', v'⟩ := kv
    cases v' <;> simpa [display_fields, hasListValue] using ih

/-- C5 counterexample: the claim says the JSON body the archive operation
PUTs contains no list-valued entries; but on fields
`{documentName: "x", deviceTable: ["a","b"]}` with a failing PUT, the
payload the operation sends retains the list value at `deviceTable`
(and even adds a literal empty-list `deviceName`), so it does contain
list-valued entries. -/
theorem claim_c5_counterexample :
    firstPut (UploadService.save_to_blob_storage "f.pdf"
        [("documentName", Value.str "x"), ("deviceTable", Value.list ["a", "b"])]
        false 0 (fun _ => .response 500 "")).trace
      = some (.put "f_result_0.json"
          [("documentName", Value.str "x"),
           ("deviceTable", Value.list ["a", "b"]),
           ("deviceName", Value.list [])])
    ∧ hasListValue
        [("documentName", Value.str "x"),
         ("deviceTable", Value.list ["a", "b"]),
         ("deviceName", Value.list [])] = true := by
  exact ⟨rfl, rfl⟩

/-- C5 (amended): the DISPLAYED representation (`display_fields` in
`src/main.py`) flattens every list value to a comma-joined (", ") string —
so the display mapping has no list-valued entries — while the archived
record the archive operation PUTs is the defaults-filled mapping itself,
which retains the list form. -/
theorem claim_c5_display_flattens (m : Fields) (k : String) (xs : List String)
    (hk : dictGet m k = some (.list xs))
    (h1 : k ≠ "documentName") (h2 : k ≠ "deviceName") :
    dictGet (display_fields m) k = some (.str (String.intercalate ", " xs))
    ∧ hasListValue (display_fields m) = false
    ∧ dictGet (UploadService.ensureDefaults m) k = some (.list xs) := by
  refine ⟨?_, display_no_lists m, ?_⟩
  · rw [dictGet_display, hk]; rfl
  · rw [ensureDefaults_other m k h1 h2]; exact hk

/-- Witness for C5 (amended): the deviceTable list is displayed as
`"a, b"` but archived as the list `["a", "b"]`. -/
theorem claim_c5_witness :
    dictGet (display_fields
        [("documentName", Value.str "x"), ("deviceTable", Value.list ["a", "b"])])
        "deviceTable" = some (.str "a, b")
    ∧ hasListValue (display_fields
        [("documentName", Value.str "x"),
         ("deviceTable", Value.list ["a", "b"])]) = false
    ∧ dictGet (UploadService.ensureDefaults
        [("documentName", Value.str "x"),
         ("deviceTable", Value.list ["a", "b"])]) "deviceTable"
      = some (.list ["a", "b"]) := by
  have h := claim_c5_display_flattens
    [("documentName", Value.str "x"), ("deviceTable", Value.list ["a", "b"])]
    "deviceTable" ["a", "b"] rfl (by decide) (by decide)
  exact h

/-- C6 counterexample: the claim says the storage key is
`<basename(name)>_result_<millis>.json`, the base name being the file name
with its extension removed; for the file name `archive.v2.pdf` the code
instead keeps only the part before the FIRST dot, producing
`archive_result_5.json`, not `archive.v2_result_5.json`. -/
theorem claim_c6_counterexample :
    UploadService.blobName "archive.v2.pdf" 5
      ≠ specBasename "archive.v2.pdf" ++ "_result_" ++ toString 5 ++ ".json" := by
  decide

/-- C6 (amended): the derived storage key equals the portion of the file
name strictly before its FIRST dot (the whole name if it has no dot),
followed by `_result_`, the epoch-millisecond timestamp, and `.json`.
For the common case of an uploaded name with a single dot this coincides
with the claim's basename-without-extension. -/
theorem claim_c6_blob_name (name : String) (t : Nat) :
    UploadService.blobName name t
      = String.mk (name.data.takeWhile (fun c => c != '.')) ++ "_result_"
        ++ toString t ++ ".json" := by
  simp only [UploadService.blobName, pySplit_headD]

/-- C7: if the k-th PUT attempt (k < 3; every earlier attempt failing)
returns status 201, the archive operation returns successfully right after
that attempt — exactly k+1 PUT attempts in total and no raised error. -/
theorem claim_c7_success_returns (fn : String) (fields : Fields) (sl : Bool)
    (now : Nat) (rs : Nat → PutOutcome) (k : Nat) (body : String)
    (hne : fields ≠ []) (hk : k < 3)
    (hbefore : ∀ i, i < k → isFailure (rs i) = true)
    (hsucc : rs k = .response 201 body) :
    (UploadService.save_to_blob_storage fn fields sl now rs).outcome = .ok
    ∧ putCount (UploadService.save_to_blob_storage fn fields sl now rs).trace
      = k + 1 := by
  rw [save_unfold fn fields sl now rs hne]
  interval_cases k
  · have s0 := runAttempts_success_step (UploadService.blobName fn now)
      (UploadService.ensureDefaults fields) rs 2 0 none body hsucc
    norm_num at s0
    cases sl <;> simp [s0, putCount, isPut]
  · have f0 := runAttempts_fail_step (UploadService.blobName fn now)
      (UploadService.ensureDefaults fields) rs 2 0 none
      (hbefore 0 (by norm_num))
    have s1 := runAttempts_success_step (UploadService.blobName fn now)
      (UploadService.ensureDefaults fields) rs 1 1
      (some (UploadService.errOf (rs 0))) body hsucc
    norm_num at f0 s1
    cases sl <;> simp [f0, s1, putCount, isPut]
  · have f0 := runAttempts_fail_step (UploadService.blobName fn now)
      (UploadService.ensureDefaults fields) rs 2 0 none
      (hbefore 0 (by norm_num))
    have f1 := runAttempts_fail_step (UploadService.blobName fn now)
      (UploadService.ensureDefaults fields) rs 1 1
      (some (UploadService.errOf (rs 0))) (hbefore 1 (by norm_num))
    have s2 := runAttempts_success_step (UploadService.blobName fn now)
      (UploadService.ensureDefaults fields) rs 0 2
      (some (UploadService.errOf (rs 1))) body hsucc
    norm_num at f0 f1 s2
    cases sl <;> simp [f0, f1, s2, putCount, isPut]

/-- Witness for C7: first attempt fails with 500, second returns 201; the
call succeeds after exactly 2 attempts. -/
theorem claim_c7_witness :
    (UploadService.save_to_blob_storage "report.pdf"
        [("documentName", Value.str "x")] false 7
        (fun i => if i = 0 then .response 500 "e" else .response 201 "ok")).outcome
      = .ok
    ∧ putCount (UploadService.save_to_blob_storage "report.pdf"
        [("documentName", Value.str "x")] false 7
        (fun i => if i = 0 then .response 500 "e" else .response 201 "ok")).trace
      = 2 := by
  have h := claim_c7_success_returns "report.pdf"
    [("documentName", Value.str "x")] false 7
    (fun i => if i = 0 then .response 500 "e" else .response 201 "ok") 1 "ok"
    (by decide) (by norm_num) (fun i hi => by interval_cases i; rfl) rfl
  exact h

/-- C8 counterexample: the archive operation MUTATES the mapping it
receives: with caller fields `{documentName: ""}` (non-empty, so it is not
rejected), after the call the caller's dict holds the sentinel
documentName and a newly added deviceName key — not its original value. -/
theorem claim_c8_counterexample :
    (UploadService.save_to_blob_storage "f.pdf"
        [("documentName", Value.str "")] false 0
        (fun _ => .response 201 "")).final
      ≠ [("documentName", Value.str "")] := by
  decide

/-- C8 (amended): feeding a non-empty mapping to the Archive Writer leaves
the caller's mapping in the defaults-filled state `ensureDefaults fields`
— so it is unchanged precisely in the benign case the producer guarantees
(documentName present and truthy, deviceName present and non-null), and is
mutated in place whenever a default actually fires. -/
theorem claim_c8_mutation (fn : String) (fields : Fields) (sl : Bool)
    (now : Nat) (rs : Nat → PutOutcome) (hne : fields ≠ []) :
    (UploadService.save_to_blob_storage fn fields sl now rs).final
      = UploadService.ensureDefaults fields
    ∧ (∀ v w, dictGet fields "documentName" = some v → v.falsy = false →
        dictGet fields "deviceName" = some w → w ≠ Value.null →
        (UploadService.save_to_blob_storage fn fields sl now rs).final
          = fields) := by
  constructor
  · rw [save_unfold fn fields sl now rs hne]
  · intro v w hv hf hw hn
    rw [save_unfold fn fields sl now rs hne]
    exact ensureDefaults_id fields v w hv hf hw hn

/-- Witness for C8 (amended): a mapping with truthy documentName and
non-null deviceName comes back from the archive call unchanged. -/
theorem claim_c8_witness :
    (UploadService.save_to_blob_storage "f.pdf"
        [("documentName", Value.str "x"), ("deviceName", Value.list ["d"])]
        false 0 (fun _ => .response 201 "")).final
      = [("documentName", Value.str "x"), ("deviceName", Value.list ["d"])] := by
  have h := claim_c8_mutation "f.pdf"
    [("documentName", Value.str "x"), ("deviceName", Value.list ["d"])]
    false 0 (fun _ => .response 201 "") (by decide)
  exact h.2 (Value.str "x") (Value.list ["d"]) rfl rfl rfl (by decide)

/-- C9 (spec-modelled, `upload_to_azure_ai` being absent from `src/`): if
the job status stays `running` or `notStarted` for the whole attempt
budget, the poll operation makes its 30 queries and raises the timeout
error — it never returns (partial) fields. -/
theorem claim_c9_poll_timeout (steps : Nat → AnalysisClient.PollStep)
    (extracted : Fields)
    (h : ∀ i, i < 30 →
      steps i = .status .running ∨ steps i = .status .notStarted) :
    AnalysisClient.poll steps extracted = (30, .fail .timeoutError) := by
  have gen : ∀ remaining q,
      (∀ i, i < remaining →
        steps (q + i) = .status .running ∨ steps (q + i) = .status .notStarted) →
      AnalysisClient.pollLoop steps extracted remaining q
        = (q + remaining, .fail .timeoutError) := by
    intro remaining
    induction remaining with
    | zero => intro q _; simp [AnalysisClient.pollLoop]
    | succ r ih =>
      intro q hq
      have hnext : ∀ i, i < r →
          steps (q + 1 + i) = .status .running ∨
          steps (q + 1 + i) = .status .notStarted := by
        intro i hi
        have := hq (i + 1) (by omega)
        rwa [show q + (i + 1) = q + 1 + i by omega] at this
      have hrec := ih (q + 1) hnext
      have harith : q + 1 + r = q + (r + 1) := by omega
      rcases hq 0 (Nat.succ_pos r) with h0 | h0 <;>
        rw [Nat.add_zero] at h0 <;>
        simp only [AnalysisClient.pollLoop, h0] <;>
        rw [hrec, harith]
  have := gen 30 0 (fun i hi => by simpa using h i hi)
  simpa [AnalysisClient.poll] using this

/-- Witness for C9: a job that reports `running` forever times out after
30 queries. -/
theorem claim_c9_witness :
    AnalysisClient.poll (fun _ => .status .running) []
      = (30, .fail .timeoutError) := by
  have h := claim_c9_poll_timeout (fun _ => .status .running) []
    (fun i _ => Or.inl rfl)
  exact h

theorem ensureDefaults_impl_eq (m : Fields) :
    UploadService.ensureDefaults m = PushToBlob.ensureDefaults m := rfl

theorem blobName_impl_eq (fn : String) (t : Nat) :
    UploadService.blobName fn t = PushToBlob.blobName fn t := rfl

theorem classify_impl_eq (s : Nat) (b : String) :
    UploadService.classify s b = PushToBlob.classify s b := rfl

theorem runAttempts_impl_eq (blob : String) (payload : Fields)
    (rs : Nat → PutOutcome) :
    ∀ remaining idx lastExc,
      UploadService.runAttempts blob payload rs remaining idx lastExc
        = PushToBlob.runAttempts blob payload rs remaining idx lastExc := by
  intro remaining
  induction remaining with
  | zero => intro idx lastExc; rfl
  | succ r ih =>
    intro idx lastExc
    simp only [UploadService.runAttempts, PushToBlob.runAttempts]
    cases rs idx with
    | response s b =>
      by_cases h : s = 201 <;>
        simp [h, ih, classify_impl_eq]
    | exc m => simp [ih]

theorem runAttempts_no_localWrite (blob : String) (payload : Fields)
    (rs : Nat → PutOutcome) :
    ∀ remaining idx lastExc e,
      e ∈ (UploadService.runAttempts blob payload rs remaining idx lastExc).1 →
      isLocalWrite e = false := by
  intro remaining
  induction remaining with
  | zero =>
    intro idx le e he
    simp [UploadService.runAttempts] at he
  | succ r ih =>
    intro idx le e he
    cases hr : rs idx with
    | response s b =>
      by_cases h : s = 201
      · subst h
        rw [runAttempts_success_step blob payload rs r idx le b hr] at he
        simp at he
        subst he; rfl
      · have hf : isFailure (rs idx) = true := by
          rw [hr]; simp [isFailure, h]
        rw [runAttempts_fail_step blob payload rs r idx le hf] at he
        rcases List.mem_append.mp he with he | he
        · rcases List.mem_cons.mp he with he | he
          · subst he; rfl
          · by_cases h0 : r = 0
            · simp [h0] at he
            · simp [h0] at he; subst he; rfl
        · exact ih (idx + 1) _ e he
    | exc m =>
      have hf : isFailure (rs idx) = true := by rw [hr]; rfl
      rw [runAttempts_fail_step blob payload rs r idx le hf] at he
      rcases List.mem_append.mp he with he | he
      · rcases List.mem_cons.mp he with he | he
        · subst he; rfl
        · by_cases h0 : r = 0
          · simp [h0] at he
          · simp [h0] at he; subst he; rfl
      · exact ih (idx + 1) _ e he

theorem networkTrace_eq_self (tr : List Event)
    (h : ∀ e ∈ tr, isLocalWrite e = false) : networkTrace tr = tr := by
  rw [networkTrace]
  exact List.filter_eq_self.mpr fun e he => by rw [h e he]; rfl

theorem push_save_unfold (fn : String) (fields : Fields) (now : Nat)
    (rs : Nat → PutOutcome) (hne : fields ≠ []) :
    PushToBlob.save_to_blob_storage fn fields now rs =
      ⟨(UploadService.runAttempts (UploadService.blobName fn now)
          (UploadService.ensureDefaults fields) rs 3 0 none).1,
        (UploadService.runAttempts (UploadService.blobName fn now)
          (UploadService.ensureDefaults fields) rs 3 0 none).2,
        UploadService.ensureDefaults fields⟩ := by
  cases fields with
  | nil => exact absurd rfl hne
  | cons a t =>
    simp [PushToBlob.save_to_blob_storage, ← runAttempts_impl_eq,
      ← blobName_impl_eq, ← ensureDefaults_impl_eq]

/-- C10: the two implementations of the archive operation
(`save_to_blob_storage` in `src/services/upload_service.py` and in
`src/services/push_to_blob.py`) are behaviourally equivalent on the
network path: for every file name, fields mapping, local-save setting,
timestamp and sequence of PUT outcomes they produce the same network
trace (same validation, PUT payloads, blob name and retry/sleep
behaviour), the same return/raise outcome, and the same final state of
the caller's mapping; the former differs only by its optional
local-file write, which `networkTrace` projects away. -/
theorem claim_c10_impls_equivalent (fn : String) (fields : Fields) (sl : Bool)
    (now : Nat) (rs : Nat → PutOutcome) :
    networkTrace (UploadService.save_to_blob_storage fn fields sl now rs).trace
      = (PushToBlob.save_to_blob_storage fn fields now rs).trace
    ∧ (UploadService.save_to_blob_storage fn fields sl now rs).outcome
      = (PushToBlob.save_to_blob_storage fn fields now rs).outcome
    ∧ (UploadService.save_to_blob_storage fn fields sl now rs).final
      = (PushToBlob.save_to_blob_storage fn fields now rs).final := by
  cases hf : fields with
  | nil => exact ⟨rfl, rfl, rfl⟩
  | cons a t =>
    have hne : (a :: t : Fields) ≠ [] := by simp
    rw [save_unfold fn (a :: t) sl now rs hne,
      push_save_unfold fn (a :: t) now rs hne]
    refine ⟨?_, rfl, rfl⟩
    have hclean := networkTrace_eq_self
      (UploadService.runAttempts (UploadService.blobName fn now)
        (UploadService.ensureDefaults (a :: t)) rs 3 0 none).1
      (runAttempts_no_localWrite (UploadService.blobName fn now)
        (UploadService.ensureDefaults (a :: t)) rs 3 0 none)
    cases sl
    · simpa using hclean
    · rw [networkTrace] at hclean ⊢
      simpa [isLocalWrite] using hclean

end CertDash
